import Mathlib

/-!
Verification development for the go-tetris game core: the piece catalog,
the 7-bag supply policy, the board, and the game orchestration layer,
shallowly embedded from the Go sources, together with theorems settling
the specification's claims about them.
-/

set_option linter.unusedVariables false

namespace Tetris

/-! ## Geometry (Vector) -/

/-- Embeds the Go `Vector` type: an integer pair used both as a grid
coordinate and as a translation delta. -/
structure Vector where
  x : Int
  y : Int
deriving DecidableEq, Repr, Inhabited

/-- Embeds `Vector.plus`: component-wise addition. -/
def Vector.plus (a b : Vector) : Vector := ⟨a.x + b.x, a.y + b.y⟩

/-! ## Colors (termbox attributes used by the catalog) -/

/-- Models the `termbox.Attribute` color tags that the piece catalog uses.
The core treats the tag as opaque, so an enumeration of the used colors
is a faithful embedding. -/
inductive Color where
  | yellow | red | green | magenta | white | blue | cyan | default
deriving DecidableEq, Repr, Inhabited

/-! ## Pieces -/

/-- Embeds the Go `PieceInstance`: one rotational layout, a list of
relative cell offsets. -/
abbrev PieceInstance := List Vector

/-- Embeds the Go `Piece` struct: name, all rotation layouts, the index of
the current rotation, the initial (spawn) location, and a color. -/
structure Piece where
  name : String
  rotations : List PieceInstance
  currentRotation : Int
  initialLocation : Vector
  color : Color
deriving DecidableEq, Repr, Inhabited

/-- Embeds `Piece.instance`: the layout selected by the current rotation
index (renamed, since `instance` is a Lean keyword). -/
def Piece.pieceInstance (p : Piece) : PieceInstance :=
  p.rotations.getD p.currentRotation.toNat []

/-- Embeds `Piece.rotate`: `currentRotation = (currentRotation + 1) % len(rotations)`
with Go's truncated `%` (`Int.tmod`). -/
def Piece.rotate (p : Piece) : Piece :=
  { p with currentRotation := (p.currentRotation + 1).tmod (p.rotations.length : Int) }

/-- Embeds `Piece.unrotate`: `currentRotation = (currentRotation - 1) % len`,
then `+ len` if the Go remainder was negative. -/
def Piece.unrotate (p : Piece) : Piece :=
  let r := (p.currentRotation - 1).tmod (p.rotations.length : Int)
  { p with currentRotation := if r < 0 then r + (p.rotations.length : Int) else r }

/-- Embeds `Piece.dblrotate`: `currentRotation = (currentRotation + 2) % len`,
then `+ len` if the Go remainder was negative. -/
def Piece.dblrotate (p : Piece) : Piece :=
  let r := (p.currentRotation + 2).tmod (p.rotations.length : Int)
  { p with currentRotation := if r < 0 then r + (p.rotations.length : Int) else r }

/-- Embeds `tetrisPieces`: the hard-coded catalog of the seven pieces with
their rotation layouts, spawn locations, and colors, exactly as in the
source. -/
def tetrisPieces : List Piece :=
  [ ⟨"O", [[⟨0, 0⟩, ⟨1, 0⟩, ⟨0, 1⟩, ⟨1, 1⟩]], 0, ⟨4, 0⟩, Color.yellow⟩,
    ⟨"Z", [[⟨0, 0⟩, ⟨1, 0⟩, ⟨1, 1⟩, ⟨2, 1⟩], [⟨1, 0⟩, ⟨0, 1⟩, ⟨1, 1⟩, ⟨0, 2⟩]],
      0, ⟨3, 0⟩, Color.red⟩,
    ⟨"S", [[⟨1, 0⟩, ⟨2, 0⟩, ⟨0, 1⟩, ⟨1, 1⟩], [⟨0, 0⟩, ⟨0, 1⟩, ⟨1, 1⟩, ⟨1, 2⟩]],
      0, ⟨3, 0⟩, Color.green⟩,
    ⟨"T", [[⟨0, 0⟩, ⟨1, 0⟩, ⟨2, 0⟩, ⟨1, 1⟩], [⟨1, 0⟩, ⟨0, 1⟩, ⟨1, 1⟩, ⟨1, 2⟩],
           [⟨1, 0⟩, ⟨0, 1⟩, ⟨1, 1⟩, ⟨2, 1⟩], [⟨0, 0⟩, ⟨0, 1⟩, ⟨1, 1⟩, ⟨0, 2⟩]],
      0, ⟨3, 0⟩, Color.magenta⟩,
    ⟨"L", [[⟨0, 1⟩, ⟨1, 1⟩, ⟨2, 1⟩, ⟨0, 2⟩], [⟨0, 0⟩, ⟨1, 0⟩, ⟨1, 1⟩, ⟨1, 2⟩],
           [⟨2, 0⟩, ⟨0, 1⟩, ⟨1, 1⟩, ⟨2, 1⟩], [⟨1, 0⟩, ⟨1, 1⟩, ⟨1, 2⟩, ⟨2, 2⟩]],
      0, ⟨3, -1⟩, Color.white⟩,
    ⟨"J", [[⟨0, 1⟩, ⟨1, 1⟩, ⟨2, 1⟩, ⟨2, 2⟩], [⟨1, 0⟩, ⟨1, 1⟩, ⟨1, 2⟩, ⟨0, 2⟩],
           [⟨0, 1⟩, ⟨1, 1⟩, ⟨2, 1⟩, ⟨0, 0⟩], [⟨1, 0⟩, ⟨2, 0⟩, ⟨1, 1⟩, ⟨1, 2⟩]],
      0, ⟨3, -1⟩, Color.blue⟩,
    ⟨"I", [[⟨0, 1⟩, ⟨1, 1⟩, ⟨2, 1⟩, ⟨3, 1⟩], [⟨1, 0⟩, ⟨1, 1⟩, ⟨1, 2⟩, ⟨1, 3⟩]],
      0, ⟨3, -1⟩, Color.cyan⟩ ]

/-! ## Bag (7-bag supply policy) -/

/-- Embeds the Go `Bag` struct. -/
structure Bag where
  pieceNumber : Int
  pieces : List Int
  bagNumber : Nat
deriving DecidableEq, Repr

/-- One `swap(i, j)` step of `rand.Shuffle`: the two slice entries are read
first and then written, so this is two `set`s with the original values. -/
def swapList (l : List Int) (i j : Nat) : List Int :=
  let a := l.getD i 0
  let b := l.getD j 0
  (l.set i b).set j a

/-- The Fisher-Yates loop of Go's `rand.Shuffle(n, swap)`: for `i` from
`n - 1` down to `1`, swap position `i` with a random position `j ∈ [0, i]`.
The random draws are supplied by the stream `js`; `rand.Intn (i+1)` is
modelled as `js i % (i + 1)`, which ranges over exactly `[0, i]`. -/
def shuffleSteps (js : Nat → Nat) : List Int → Nat → List Int
  | l, 0 => l
  | l, i + 1 => shuffleSteps js (swapList l (i + 1) (js (i + 1) % (i + 2))) i

/-- Embeds `Bag.shuffle`: reset `pieces` to the constant set `{0..6}` and
run `rand.Shuffle` over it (the reseeding of the global source is not part
of the state model; the randomness is the explicit stream `js`). -/
def Bag.shuffle (b : Bag) (js : Nat → Nat) : Bag :=
  { b with pieces := shuffleSteps js [0, 1, 2, 3, 4, 5, 6] 6 }

/-- Embeds `Bag.initialize` (renamed: the name must not end in a reserved
word): reset the piece number to 6 and shuffle. -/
def Bag.initializeBag (b : Bag) (js : Nat → Nat) : Bag :=
  { b.shuffle js with pieceNumber := 6 }

/-- Embeds `Bag.getPiece`. If `pieceNumber` has gone negative the bag is
first re-initialized (fresh shuffle, `pieceNumber = 6`) and `bagNumber` is
incremented; then the piece at index `pieceNumber` is returned and
`pieceNumber` is decremented. The randomness for the `k`-th reshuffle is
the stream `rnd k`; since `bagNumber` increases by one per reshuffle,
indexing the meta-stream by `bagNumber` gives each reshuffle a fresh
stream. -/
def Bag.getPiece (rnd : Nat → Nat → Nat) (b : Bag) : Int × Bag :=
  let b1 := if b.pieceNumber < 0 then
      let b2 := Bag.initializeBag b (rnd b.bagNumber)
      { b2 with bagNumber := b2.bagNumber + 1 }
    else b
  (b1.pieces.getD b1.pieceNumber.toNat 0, { b1 with pieceNumber := b1.pieceNumber - 1 })

/-- The bag state after `n` draws. -/
def bagIter (rnd : Nat → Nat → Nat) (b : Bag) : Nat → Bag
  | 0 => b
  | n + 1 => (Bag.getPiece rnd (bagIter rnd b n)).2

/-- The value of the `n`-th draw (0-based) from bag state `b`. -/
def bagDraw (rnd : Nat → Nat → Nat) (b : Bag) (n : Nat) : Int :=
  (Bag.getPiece rnd (bagIter rnd b n)).1

/-- The `m`-th aligned run of 7 consecutive draws. -/
def runList (rnd : Nat → Nat → Nat) (b : Bag) (m : Nat) : List Int :=
  (List.range 7).map fun k => bagDraw rnd b (7 * m + k)

/-- The permutation held by the bag during its `m`-th aligned run of 7
draws: the initial shuffle for `m = 0`, and the reshuffle consuming the
stream `rnd (B + m - 1)` afterwards, where `B` is the starting bag
number. -/
def bagPieces (js : Nat → Nat) (rnd : Nat → Nat → Nat) (B : Nat) : Nat → List Int
  | 0 => shuffleSteps js [0, 1, 2, 3, 4, 5, 6] 6
  | m + 1 => shuffleSteps (rnd (B + m)) [0, 1, 2, 3, 4, 5, 6] 6

/-- Closed form for the bag state after `n` draws from a freshly
initialized bag with starting bag number `B`. -/
def bagState (js : Nat → Nat) (rnd : Nat → Nat → Nat) (B : Nat) (n : Nat) : Bag :=
  if n = 0 then ⟨6, bagPieces js rnd B 0, B⟩
  else if n % 7 = 0 then ⟨-1, bagPieces js rnd B (n / 7 - 1), B + (n / 7 - 1)⟩
  else ⟨6 - ((n % 7 : Nat) : Int), bagPieces js rnd B (n / 7), B + n / 7⟩

/-! ## Board (spec-modelled: `board.go` is not among the sources, only its
callers in the game file; the definitions below follow the spec's
descriptions of the Board component) -/

/-- Modelled from the spec: `board.go` is absent from the sources; the board
is a fixed `width × height` grid. The concrete value of `width` is not
fixed by the spec; the theorems below do not depend on it. -/
def width : Nat := 10

/-- Modelled from the spec: `board.go` is absent from the sources; fixed
grid height. The concrete value is not fixed by the spec; the theorems
below do not depend on it. -/
def height : Nat := 16

/-- Modelled from the spec: `board.go` is absent from the sources; it
defines the fixed spawn column `initialX` used by `NewGame` and `anchor`
(`Vector{initialX, 0}`). The concrete value is immaterial to the theorems
below. -/
def initialX : Int := 4

/-- A grid of settled cells: `height` rows, each `width` cells, each empty
(`none`) or holding a settled color tag. -/
abbrev Grid := List (List (Option Color))

/-- A row with every cell empty. -/
def emptyRow : List (Option Color) := List.replicate width none

/-- The all-empty grid of a fresh board. -/
def newCells : Grid := List.replicate height emptyRow

/-- Modelled from the spec: the Board holds the settled-cell grid plus the
current falling piece and its position. The Go `currentPiece` field is a
`*Piece` pointing into the game's catalog slice; it is modelled as the
index of that catalog entry. -/
structure Board where
  cells : Grid
  currentPiece : Nat
  currentPosition : Vector
deriving DecidableEq, Repr, Inhabited

/-- Modelled from the spec: `newBoard()` returns a board with an empty
grid (the piece fields are filled in by `NewGame`). -/
def newBoard : Board := ⟨newCells, 0, ⟨0, 0⟩⟩

/-- The settled color at a grid coordinate, `none` outside the grid (the Go
cell map holds no entry there). -/
def Board.cellAt (b : Board) (v : Vector) : Option Color :=
  if 0 ≤ v.x ∧ v.x < (width : Int) ∧ 0 ≤ v.y ∧ v.y < (height : Int) then
    (b.cells.getD v.y.toNat []).getD v.x.toNat none
  else none

/-- Modelled from the spec: `canPlace(delta, rotationIndex)` holds iff every
absolute cell of the piece at `position + delta` under the given rotation
lies within the side bounds (`0 ≤ x < width`), above the floor
(`y < height`, with no upper bound so pieces may sit above the visible
top), and does not coincide with a settled cell. -/
def Board.canPlace (b : Board) (p : Piece) (delta : Vector) (rot : Int) : Bool :=
  (p.rotations.getD rot.toNat []).all fun off =>
    let c := (b.currentPosition.plus delta).plus off
    decide (0 ≤ c.x) && decide (c.x < (width : Int)) && decide (c.y < (height : Int)) &&
      decide (b.cellAt c = none)

/-- Modelled from the spec: `moveIfPossible(delta)` commits
`position += delta` and returns true when `canPlace(delta, currentRotation)`
holds, and otherwise leaves the board unchanged and returns false. -/
def Board.moveIfPossible (b : Board) (p : Piece) (delta : Vector) : Board × Bool :=
  if b.canPlace p delta p.currentRotation then
    ({ b with currentPosition := b.currentPosition.plus delta }, true)
  else (b, false)

/-- Modelled from the spec: `currentPieceInCollision()` is true iff the
piece's cells at the current position and rotation overlap settled cells or
lie outside the horizontal or lower bounds. -/
def Board.currentPieceInCollision (b : Board) (p : Piece) : Bool :=
  !(b.canPlace p ⟨0, 0⟩ p.currentRotation)

/-- Write one settled cell. Negative coordinates are outside the fixed grid
and are dropped; the claims below do not inspect such cells. -/
def setCell (g : Grid) (v : Vector) (c : Color) : Grid :=
  if 0 ≤ v.x ∧ 0 ≤ v.y then
    g.set v.y.toNat ((g.getD v.y.toNat []).set v.x.toNat (some c))
  else g

/-- Modelled from the spec: `mergeCurrentPiece()` copies the piece's
occupied cells into the settled grid using the piece's color tag. -/
def Board.mergeCurrentPiece (b : Board) (p : Piece) : Board :=
  let merged := p.pieceInstance.foldl
    (fun g off => setCell g (b.currentPosition.plus off) p.color) b.cells
  { b with cells := merged }

/-- A row qualifies for clearing iff every cell in it is settled. -/
def rowFull (row : List (Option Color)) : Bool := row.all fun c => c.isSome

/-- Modelled from the spec: `clearedRows()` scans rows top to bottom and
returns the indices of the full rows in ascending order. -/
def clearedRowsList (g : Grid) : List Nat :=
  (List.range g.length).filter fun y => rowFull (g.getD y [])

/-- Board-level wrapper for `clearedRowsList`. -/
def Board.clearedRows (b : Board) : List Nat := clearedRowsList b.cells

/-- Modelled from the spec: `clearRows()` removes all currently-full rows,
rebuilding the grid by keeping only non-full rows in order and prepending
enough empty rows at the top to restore the fixed height. -/
def clearRowsList (g : Grid) : Grid :=
  List.replicate (g.filter (fun r => rowFull r)).length emptyRow ++
    g.filter fun r => !(rowFull r)

/-- Board-level wrapper for `clearRowsList`. -/
def Board.clearRows (b : Board) : Board := { b with cells := clearRowsList b.cells }

/-- The quick-drop descent loop: repeated `moveIfPossible({0,1})` until the
first failure. The Go loop has no fuel; every catalog piece occupies cells,
so the loop is bounded by the grid height, and callers pass fuel at least
`height + 8`, enough for any piece spawned above the top. -/
def Board.dropLoop (b : Board) (p : Piece) : Nat → Board
  | 0 => b
  | fuel + 1 =>
    let r := b.moveIfPossible p ⟨0, 1⟩
    if r.2 then r.1.dropLoop p fuel else r.1

/-! ## Game -/

/-- Embeds the Go `Direction` type. -/
inductive Direction where
  | Up | Down | Left | Right
deriving DecidableEq, Repr

/-- Embeds the Go `Game` struct (the `time.Ticker` handle is not state the
claims observe; its recomputed interval `dropDelayMillis` is kept). -/
structure Game where
  board : Board
  nextPiece : Nat
  pieces : List Piece
  paused : Bool
  over : Bool
  dropDelayMillis : Int
  score : Int
deriving DecidableEq, Repr

/-- The catalog entry the board's current-piece pointer refers to. -/
def Game.currentP (g : Game) : Piece := g.pieces.getD g.board.currentPiece default

/-- Embeds `Game.GeneratePiece`: `&game.pieces[rand.Intn(len(game.pieces))]`,
a uniformly random index into the catalog; the random draw is supplied as
`r` and reduced modulo the catalog size, which ranges over exactly the
indices `rand.Intn` can produce. -/
def Game.GeneratePiece (g : Game) (r : Nat) : Nat := r % g.pieces.length

/-- Embeds `Game.startTicker`: `dropDelayMillis = 800 - score/5` with Go's
truncated integer division, floored at 200. -/
def Game.startTicker (g : Game) : Game :=
  let d := 800 - g.score.tdiv 5
  { g with dropDelayMillis := if d < 200 then 200 else d }

/-- Embeds `NewGame`: fresh catalog, empty board, a random current piece at
`Vector{initialX, 0}`, a random lookahead piece, score 0, and the ticker
started. The two random draws are supplied as `r1`, `r2`. -/
def NewGame (r1 r2 : Nat) : Game :=
  let pieces := tetrisPieces
  let b : Board := ⟨newCells, r1 % pieces.length, ⟨initialX, 0⟩⟩
  let g0 : Game := ⟨b, r2 % pieces.length, pieces, false, false, 0, 0⟩
  g0.startTicker

/-- Embeds `Game.anchor`: merge the current piece, compute the cleared
rows; if any, remove them, add `100 * 2^(rowsCleared-1)` points (the Go
source computes this via `math.Pow`, which is exact for these arguments,
and converts back to `int`) and restart the ticker; then bring in the next
piece at `Vector{initialX, 0}`, draw a new lookahead, reset the new
lookahead's rotation to 0 through its catalog pointer, and set game-over if
the incoming piece is already in collision. The row-flicker animation only
draws to the terminal and is not state. -/
def Game.anchor (g : Game) (r : Nat) : Game :=
  let b1 := g.board.mergeCurrentPiece g.currentP
  let rowsCleared := clearedRowsList b1.cells
  let g1 : Game := { g with board := b1 }
  let g2 := if 0 < rowsCleared.length then
      ({ g1 with board := g1.board.clearRows,
                 score := g1.score + 100 * (2 : Int) ^ (rowsCleared.length - 1) }).startTicker
    else g1
  let next := g.GeneratePiece r
  let b3 : Board := { g2.board with currentPiece := g.nextPiece, currentPosition := ⟨initialX, 0⟩ }
  let resetNext : Piece := { g2.pieces.getD next default with currentRotation := 0 }
  let g3 : Game := { g2 with board := b3, nextPiece := next, pieces := g2.pieces.set next resetNext }
  if g3.board.currentPieceInCollision g3.currentP then { g3 with over := true } else g3

/-- Embeds `Game.Move`: translate by the direction's unit delta via
`moveIfPossible`; a failed downward move triggers `anchor`. -/
def Game.Move (g : Game) (dir : Direction) (r : Nat) : Game :=
  let translation : Vector :=
    match dir with
    | Direction.Down => ⟨0, 1⟩
    | Direction.Left => ⟨-1, 0⟩
    | Direction.Right => ⟨1, 0⟩
    | Direction.Up => ⟨0, 0⟩
  let res := g.board.moveIfPossible g.currentP translation
  let g' : Game := { g with board := res.1 }
  if dir = Direction.Down ∧ res.2 = false then g'.anchor r else g'

/-- Embeds `Game.QuickDrop`: move down as far as possible, then anchor. -/
def Game.QuickDrop (g : Game) (r : Nat) : Game :=
  ({ g with board := g.board.dropLoop g.currentP (height + 8) }).anchor r

/-- Embeds `Game.Rotate`: rotate the current piece through its catalog
pointer, then undo the rotation if the piece is now in collision. -/
def Game.Rotate (g : Game) : Game :=
  let cur := g.board.currentPiece
  let g1 : Game := { g with pieces := g.pieces.set cur (g.currentP).rotate }
  if g1.board.currentPieceInCollision g1.currentP then
    { g1 with pieces := g1.pieces.set cur (g1.currentP).unrotate }
  else g1

/-- Modelled from the spec: the fork's counterclockwise-rotation handler is
not among the sources (only `Piece.unrotate` is); per the spec it advances
the rotation by -1 (mod rotation-state count) and, if the resulting
position collides, reverts to the prior rotation index. -/
def Game.RotateCCW (g : Game) : Game :=
  let cur := g.board.currentPiece
  let prior := (g.currentP).currentRotation
  let g1 : Game := { g with pieces := g.pieces.set cur (g.currentP).unrotate }
  if g1.board.currentPieceInCollision g1.currentP then
    { g1 with pieces := g1.pieces.set cur { g1.currentP with currentRotation := prior } }
  else g1

/-- Modelled from the spec: the fork's 180-degree-rotation handler is not
among the sources (only `Piece.dblrotate` is); per the spec it advances the
rotation by +2 (mod rotation-state count) and, if the resulting position
collides, reverts to the prior rotation index. -/
def Game.Rotate180 (g : Game) : Game :=
  let cur := g.board.currentPiece
  let prior := (g.currentP).currentRotation
  let g1 : Game := { g with pieces := g.pieces.set cur (g.currentP).dblrotate }
  if g1.board.currentPieceInCollision g1.currentP then
    { g1 with pieces := g1.pieces.set cur { g1.currentP with currentRotation := prior } }
  else g1

/-- Embeds `Game.PauseToggle`: unpausing restarts the ticker (recomputing
the interval from the score); pausing stops it; the flag flips. -/
def Game.PauseToggle (g : Game) : Game :=
  let g' := if g.paused then g.startTicker else g
  { g' with paused := !g.paused }

/-- Embeds the Go `GameEvent` enumeration, extended with the spec's
`RotateCCW` and `Rotate180` events (the fork's extra key bindings are not
among the sources). -/
inductive GameEvent where
  | MoveLeft | MoveRight | MoveDown | Rotate | RotateCCW | Rotate180
  | QuickDrop | Pause | Quit | Redraw
deriving DecidableEq, Repr

/-- One iteration of the `Start` event loop: when paused, every event other
than `Pause` (and the loop-level `Quit`/`Redraw`) is ignored; otherwise the
event is dispatched to the corresponding game operation. `Redraw` never
changes state. -/
def Game.step (g : Game) (e : GameEvent) (r : Nat) : Game :=
  if g.paused then
    match e with
    | GameEvent.Pause => g.PauseToggle
    | GameEvent.MoveLeft => g
    | GameEvent.MoveRight => g
    | GameEvent.MoveDown => g
    | GameEvent.Rotate => g
    | GameEvent.RotateCCW => g
    | GameEvent.Rotate180 => g
    | GameEvent.QuickDrop => g
    | GameEvent.Quit => g
    | GameEvent.Redraw => g
  else
    match e with
    | GameEvent.MoveLeft => g.Move Direction.Left r
    | GameEvent.MoveRight => g.Move Direction.Right r
    | GameEvent.MoveDown => g.Move Direction.Down r
    | GameEvent.QuickDrop => g.QuickDrop r
    | GameEvent.Rotate => g.Rotate
    | GameEvent.RotateCCW => g.RotateCCW
    | GameEvent.Rotate180 => g.Rotate180
    | GameEvent.Pause => g.PauseToggle
    | GameEvent.Quit => g
    | GameEvent.Redraw => g

/-- The `Start` loop over a finite schedule of events (each paired with the
randomness its handler may consume): `Quit` returns immediately, and after
any processed event that leaves the game over, the loop breaks — the
subsequent game-over phase only waits for `Quit` and never mutates state. -/
def Game.run (g : Game) : List (GameEvent × Nat) → Game
  | [] => g
  | (e, r) :: rest =>
    if e = GameEvent.Quit then g
    else
      let g' := g.step e r
      if g'.over then g' else g'.run rest

/-! ## Fixed streams and states used by concrete witnesses -/

/-- A constant randomness stream for concrete evaluations. -/
def js0 : Nat → Nat := fun _ => 0

/-- A constant reshuffle-randomness meta-stream for concrete evaluations. -/
def rnd0 : Nat → Nat → Nat := fun _ _ => 0

/-- A zero-valued bag for concrete evaluations. -/
def bag0 : Bag := ⟨0, [], 0⟩

/-- A concrete game whose current and lookahead pieces alias the same
catalog entry (index 4, the L piece), on an empty board. -/
def gameC2 : Game := ⟨⟨newCells, 4, ⟨4, 0⟩⟩, 4, tetrisPieces, false, false, 800, 0⟩

/-- A concrete game whose current piece is catalog entry 3 (the T piece),
on an empty board. -/
def gameC3 : Game := ⟨⟨newCells, 3, ⟨4, 0⟩⟩, 0, tetrisPieces, false, false, 800, 0⟩

/-- A concrete paused game. -/
def gamePaused : Game := ⟨⟨newCells, 0, ⟨4, 0⟩⟩, 1, tetrisPieces, true, false, 800, 0⟩

/-- An empty grid with one settled cell at `(4, 1)`, one of the spawn cells
of the L piece at `Vector{initialX, 0}`. -/
def gridSpawnBlocked : Grid := newCells.set 1 (emptyRow.set 4 (some Color.red))

/-- A concrete game whose next piece (L) will collide immediately when it
enters play, so the next anchor sets game-over. -/
def gameSpawnBlocked : Game :=
  ⟨⟨gridSpawnBlocked, 0, ⟨0, 0⟩⟩, 4, tetrisPieces, false, false, 800, 0⟩

/-- An empty grid whose two bottom rows are completely settled. -/
def gridTwoFull : Grid :=
  (newCells.set 14 (List.replicate width (some Color.blue))).set 15
    (List.replicate width (some Color.green))

/-- A concrete game whose board holds two full rows, for exercising the
scoring path of `anchor`. -/
def gameTwoFull : Game :=
  ⟨⟨gridTwoFull, 0, ⟨0, 0⟩⟩, 1, tetrisPieces, false, false, 800, 0⟩

/-- A fresh game with a chosen score, for exercising the speed curve. -/
def gameWithScore (s : Int) : Game := ⟨newBoard, 0, tetrisPieces, false, false, 0, s⟩

/-- A fully settled row. -/
def fullRowRed : List (Option Color) := List.replicate width (some Color.red)

/-- A distinctive non-full row (the "A" row of the spec's clearing
example). -/
def rowANine : List (Option Color) := some Color.yellow :: List.replicate 9 none

/-- A second distinctive non-full row (the "B" row of the spec's clearing
example). -/
def rowBNine : List (Option Color) := some Color.green :: List.replicate 9 none

/-- The spec's clearing example: height 4, rows 1 and 3 (0-indexed) full,
row 0 = A, row 2 = B. -/
def gridC9 : Grid := [rowANine, fullRowRed, rowBNine, fullRowRed]

/-- The immutable part of a catalog entry: everything except the
current-rotation field. -/
def sameShape (p q : Piece) : Prop :=
  p.name = q.name ∧ p.rotations = q.rotations ∧
    p.initialLocation = q.initialLocation ∧ p.color = q.color

/-- The rotation of the lookahead's catalog entry is 0 whenever the
lookahead does not alias the current piece (this holds in every reachable
state: each draw resets the drawn entry's rotation). -/
def Game.nextRotZero (g : Game) : Prop :=
  g.nextPiece ≠ g.board.currentPiece →
    (g.pieces.getD g.nextPiece default).currentRotation = 0

/-! ## Lemmas -/

lemma getD_cons_set_perm :
    ∀ (l : List Int) (m : Nat), m < l.length → ∀ a : Int,
      List.Perm (l.getD m 0 :: l.set m a) (a :: l) := by
  intro l
  induction l with
  | nil => intro m hm; simp at hm
  | cons x t ih =>
    intro m hm a
    cases m with
    | zero => simpa using List.Perm.swap a x t
    | succ k =>
      have hk : k < t.length := by simpa using hm
      show List.Perm (t.getD k 0 :: x :: t.set k a) (a :: x :: t)
      exact ((List.Perm.swap x (t.getD k 0) (t.set k a)).trans
        ((ih k hk a).cons x)).trans (List.Perm.swap a x t)

lemma swapList_perm :
    ∀ (l : List Int) (i j : Nat), i < l.length → j < l.length →
      List.Perm (swapList l i j) l := by
  intro l
  induction l with
  | nil => intro i j hi; simp at hi
  | cons x t ih =>
    intro i j hi hj
    cases i with
    | zero =>
      cases j with
      | zero => simp [swapList]
      | succ m =>
        have hm : m < t.length := by simpa using hj
        simpa [swapList] using getD_cons_set_perm t m hm x
    | succ n =>
      have hn : n < t.length := by simpa using hi
      cases j with
      | zero =>
        simpa [swapList] using getD_cons_set_perm t n hn x
      | succ m =>
        have hm : m < t.length := by simpa using hj
        have := ih n m hn hm
        simpa [swapList] using List.Perm.cons x this

lemma swapList_length (l : List Int) (i j : Nat) :
    (swapList l i j).length = l.length := by
  simp [swapList]

lemma shuffleSteps_perm (js : Nat → Nat) :
    ∀ (k : Nat) (l : List Int), k < l.length →
      List.Perm (shuffleSteps js l k) l := by
  intro k
  induction k with
  | zero => intro l hk; simp [shuffleSteps]
  | succ k ih =>
    intro l hk
    have h1 : k + 1 < l.length := hk
    have h2 : js (k + 1) % (k + 2) < l.length := by
      have : js (k + 1) % (k + 2) < k + 2 := Nat.mod_lt _ (by omega)
      omega
    have hlen : (swapList l (k + 1) (js (k + 1) % (k + 2))).length = l.length :=
      swapList_length l _ _
    have hih := ih (swapList l (k + 1) (js (k + 1) % (k + 2))) (by omega)
    exact (hih.trans (swapList_perm l _ _ h1 h2))

lemma shuffleSteps_length (js : Nat → Nat) :
    ∀ (k : Nat) (l : List Int), (shuffleSteps js l k).length = l.length := by
  intro k
  induction k with
  | zero => intro l; rfl
  | succ k ih => intro l; rw [shuffleSteps, ih, swapList_length]

lemma bagPieces_perm (js : Nat → Nat) (rnd : Nat → Nat → Nat) (B m : Nat) :
    List.Perm (bagPieces js rnd B m) [0, 1, 2, 3, 4, 5, 6] := by
  cases m with
  | zero => exact shuffleSteps_perm js 6 _ (by simp)
  | succ m => exact shuffleSteps_perm (rnd (B + m)) 6 _ (by simp)

lemma bagPieces_length (js : Nat → Nat) (rnd : Nat → Nat → Nat) (B m : Nat) :
    (bagPieces js rnd B m).length = 7 := by
  cases m with
  | zero => exact shuffleSteps_length js 6 _
  | succ m => exact shuffleSteps_length (rnd (B + m)) 6 _

lemma bagPieces_nodup (js : Nat → Nat) (rnd : Nat → Nat → Nat) (B m : Nat) :
    (bagPieces js rnd B m).Nodup :=
  (List.Perm.nodup_iff (bagPieces_perm js rnd B m)).2 (by decide)

lemma getPiece_bagState (js : Nat → Nat) (rnd : Nat → Nat → Nat) (B : Nat) (n : Nat) :
    Bag.getPiece rnd (bagState js rnd B n) =
      ((bagPieces js rnd B (n / 7)).getD (6 - n % 7) 0, bagState js rnd B (n + 1)) := by
  rcases Nat.eq_zero_or_pos n with hn | hn
  · subst hn
    simp [bagState, Bag.getPiece]
  · have h7 : n % 7 = 0 ∨ n % 7 = 1 ∨ n % 7 = 2 ∨ n % 7 = 3 ∨ n % 7 = 4 ∨
        n % 7 = 5 ∨ n % 7 = 6 := by omega
    rcases h7 with h7 | h7 | h7 | h7 | h7 | h7 | h7
    · obtain ⟨m, hm'⟩ : ∃ m, n / 7 = m + 1 := ⟨n / 7 - 1, by omega⟩
      have h1 : (n + 1) % 7 = 1 := by omega
      have h2 : (n + 1) / 7 = m + 1 := by omega
      simp only [bagState, if_neg hn.ne', if_pos h7, if_neg (by omega : ¬ n + 1 = 0),
        if_neg (by omega : ¬ (n + 1) % 7 = 0), h1, h2, hm', h7]
      simp [Bag.getPiece, Bag.initializeBag, Bag.shuffle, bagPieces]
      omega
    all_goals {
      have h1 : (n + 1) % 7 = n % 7 + 1 ∨ (n + 1) % 7 = 0 := by omega
      have h2 : (n + 1) / 7 = n / 7 ∨ (n + 1) / 7 = n / 7 + 1 := by omega
      rcases h1 with h1 | h1 <;> rcases h2 with h2 | h2 <;>
        first
        | omega
        | (simp only [bagState, if_neg hn.ne', if_neg (by omega : ¬ n % 7 = 0),
             if_neg (by omega : ¬ n + 1 = 0), h1, h2, h7]
           simp [Bag.getPiece]
           try omega)
    }

lemma bagIter_initialize (b : Bag) (js : Nat → Nat) (rnd : Nat → Nat → Nat) :
    ∀ n, bagIter rnd (Bag.initializeBag b js) n = bagState js rnd b.bagNumber n := by
  intro n
  induction n with
  | zero => simp [bagIter, Bag.initializeBag, Bag.shuffle, bagState, bagPieces]
  | succ n ih =>
    rw [bagIter, ih, getPiece_bagState]

lemma bagDraw_formula (b : Bag) (js : Nat → Nat) (rnd : Nat → Nat → Nat) (n : Nat) :
    bagDraw rnd (Bag.initializeBag b js) n =
      (bagPieces js rnd b.bagNumber (n / 7)).getD (6 - n % 7) 0 := by
  rw [bagDraw, bagIter_initialize, getPiece_bagState]

lemma reverse_of_length_seven (l : List Int) (h : l.length = 7) :
    l.reverse = [l.getD 6 0, l.getD 5 0, l.getD 4 0, l.getD 3 0,
                 l.getD 2 0, l.getD 1 0, l.getD 0 0] := by
  rcases l with _ | ⟨a, _ | ⟨b, _ | ⟨c, _ | ⟨d, _ | ⟨e, _ | ⟨f, _ | ⟨g, _ | ⟨h8, t⟩⟩⟩⟩⟩⟩⟩⟩ <;>
    simp_all

lemma runList_eq_reverse (b : Bag) (js : Nat → Nat) (rnd : Nat → Nat → Nat) (m : Nat) :
    runList rnd (Bag.initializeBag b js) m = (bagPieces js rnd b.bagNumber m).reverse := by
  have hr : List.range 7 = [0, 1, 2, 3, 4, 5, 6] := by decide
  have hlen := bagPieces_length js rnd b.bagNumber m
  have e : ∀ k, k < 7 → bagDraw rnd (Bag.initializeBag b js) (7 * m + k) =
      (bagPieces js rnd b.bagNumber m).getD (6 - k) 0 := by
    intro k hk
    rw [bagDraw_formula]
    have h1 : (7 * m + k) / 7 = m := by omega
    have h2 : (7 * m + k) % 7 = k := by omega
    rw [h1, h2]
  rw [runList, hr, reverse_of_length_seven _ hlen]
  simp only [List.map_cons, List.map_nil]
  rw [e 0 (by omega), e 1 (by omega), e 2 (by omega), e 3 (by omega),
      e 4 (by omega), e 5 (by omega), e 6 (by omega)]

lemma bagDraw_adjacent_ne (b : Bag) (js : Nat → Nat) (rnd : Nat → Nat → Nat)
    (i : Nat) (h : i % 7 ≠ 6) :
    bagDraw rnd (Bag.initializeBag b js) i ≠ bagDraw rnd (Bag.initializeBag b js) (i + 1) := by
  rw [bagDraw_formula, bagDraw_formula]
  have h1 : (i + 1) % 7 = i % 7 + 1 := by omega
  have h2 : (i + 1) / 7 = i / 7 := by omega
  rw [h1, h2]
  have hlen : (bagPieces js rnd b.bagNumber (i / 7)).length = 7 :=
    bagPieces_length js rnd b.bagNumber (i / 7)
  have hnd : (bagPieces js rnd b.bagNumber (i / 7)).Nodup :=
    bagPieces_nodup js rnd b.bagNumber (i / 7)
  have ha : 6 - i % 7 < (bagPieces js rnd b.bagNumber (i / 7)).length := by omega
  have hb : 6 - (i % 7 + 1) < (bagPieces js rnd b.bagNumber (i / 7)).length := by omega
  rw [List.getD_eq_getElem _ _ ha, List.getD_eq_getElem _ _ hb]
  intro hEq
  have := (List.Nodup.getElem_inj_iff hnd).1 hEq
  omega

lemma getD_set_self' {α : Type} (l : List α) (i : Nat) (a d : α) (h : i < l.length) :
    (l.set i a).getD i d = a := by
  rw [List.getD_eq_getElem _ _ (by simpa using h)]
  exact List.getElem_set_self _

lemma getD_set_ne' {α : Type} (l : List α) (i j : Nat) (a d : α) (h : i ≠ j) :
    (l.set i a).getD j d = l.getD j d := by
  by_cases hj : j < l.length
  · rw [List.getD_eq_getElem _ _ (by simpa using hj), List.getD_eq_getElem _ _ hj]
    exact List.getElem_set_ne h _
  · rw [List.getD_eq_default _ _ (by simpa using Nat.le_of_not_lt hj),
      List.getD_eq_default _ _ (Nat.le_of_not_lt hj)]

lemma set_getD_self' {α : Type} (l : List α) (i : Nat) (d : α) :
    l.set i (l.getD i d) = l := by
  by_cases h : i < l.length
  · rw [List.getD_eq_getElem _ _ h]
    apply List.ext_getElem (by simp)
    intro j h1 h2
    by_cases hij : i = j
    · subst hij
      simp
    · rw [List.getElem_set_ne hij]
  · exact List.set_eq_of_length_le (Nat.le_of_not_lt h)

lemma rotate_spec (p : Piece) (h0 : 0 ≤ p.currentRotation) :
    p.rotate =
      { p with currentRotation := (p.currentRotation + 1) % (p.rotations.length : Int) } := by
  unfold Piece.rotate
  rw [Int.tmod_eq_emod (by omega) (by exact_mod_cast Nat.zero_le _)]

lemma dblrotate_spec (p : Piece) (h0 : 0 ≤ p.currentRotation) (hL : 0 < p.rotations.length) :
    p.dblrotate =
      { p with currentRotation := (p.currentRotation + 2) % (p.rotations.length : Int) } := by
  have hL' : ((p.rotations.length : Int)) ≠ 0 := by exact_mod_cast hL.ne'
  have hnn := Int.emod_nonneg (p.currentRotation + 2) hL'
  unfold Piece.dblrotate
  rw [Int.tmod_eq_emod (by omega) (by exact_mod_cast Nat.zero_le _)]
  simp only [Piece.mk.injEq, true_and, and_true]
  split <;> omega

lemma unrotate_spec (p : Piece) (h0 : 0 ≤ p.currentRotation)
    (hlt : p.currentRotation < (p.rotations.length : Int)) :
    p.unrotate =
      { p with currentRotation := (p.currentRotation - 1) % (p.rotations.length : Int) } := by
  have hL : (0 : Int) < (p.rotations.length : Int) := lt_of_le_of_lt h0 hlt
  unfold Piece.unrotate
  rcases eq_or_lt_of_le h0 with hr0 | hrpos
  · rw [show p.currentRotation - 1 = (-1 : Int) from by omega]
    by_cases hL1 : p.rotations.length = 1
    · norm_num [hL1]
    · have hL2 : (2 : Int) ≤ (p.rotations.length : Int) := by
        have h3 : 0 < p.rotations.length := by exact_mod_cast hL
        have h4 : 1 < p.rotations.length := by omega
        exact_mod_cast h4
      have htd : ((-1 : Int)).tdiv (p.rotations.length : Int) = 0 := by
        have h1 : ((1 : Int)).tdiv (p.rotations.length : Int) = 0 :=
          Int.tdiv_eq_zero_of_lt (by norm_num) (by omega)
        have h2 := Int.neg_tdiv 1 ((p.rotations.length : Int))
        rw [h1] at h2
        simpa using h2
      have htm : ((-1 : Int)).tmod (p.rotations.length : Int) = -1 := by
        rw [Int.tmod_def, htd]
        ring
      have hrhs : ((-1 : Int)) % (p.rotations.length : Int) =
          (p.rotations.length : Int) - 1 := by
        have h1 := Int.add_mul_emod_self_left (a := (-1 : Int))
          (b := ((p.rotations.length : Int))) (c := 1)
        have h2 : ((-1 : Int) + (p.rotations.length : Int) * 1) =
            (p.rotations.length : Int) - 1 := by ring
        rw [h2] at h1
        rw [← h1]
        exact Int.emod_eq_of_lt (by omega) (by omega)
      rw [htm]
      simp only [Piece.mk.injEq, true_and, and_true]
      split <;> omega
  · have h1 : (p.currentRotation - 1).tmod (p.rotations.length : Int) =
        (p.currentRotation - 1) % (p.rotations.length : Int) :=
      Int.tmod_eq_emod (by omega) (by exact_mod_cast Nat.zero_le _)
    have h2 := Int.emod_nonneg (p.currentRotation - 1) hL.ne'
    rw [h1]
    simp only [Piece.mk.injEq, true_and, and_true]
    split <;> omega

lemma rotate_unrotate (p : Piece) (h0 : 0 ≤ p.currentRotation)
    (hlt : p.currentRotation < (p.rotations.length : Int)) :
    p.rotate.unrotate = p := by
  have hL : (0 : Int) < (p.rotations.length : Int) := lt_of_le_of_lt h0 hlt
  rw [rotate_spec p h0]
  rw [unrotate_spec _ (by simpa using Int.emod_nonneg _ hL.ne')
    (by simpa using Int.emod_lt_of_pos _ hL)]
  have key : ((p.currentRotation + 1) % (p.rotations.length : Int) - 1) %
      (p.rotations.length : Int) = p.currentRotation := by
    conv_lhs => rw [Int.sub_emod]
    rw [Int.emod_emod_of_dvd _ dvd_rfl, ← Int.sub_emod]
    simp only [add_sub_cancel_right]
    exact Int.emod_eq_of_lt h0 hlt
  simp [key]

lemma restore_prior_unrotate (p : Piece) :
    { p.unrotate with currentRotation := p.currentRotation } = p := rfl

lemma restore_prior_dblrotate (p : Piece) :
    { p.dblrotate with currentRotation := p.currentRotation } = p := rfl

lemma Rotate_of_not_collision (g : Game) (hcur : g.board.currentPiece < g.pieces.length)
    (hc : g.board.currentPieceInCollision (g.currentP).rotate = false) :
    g.Rotate = { g with pieces := g.pieces.set g.board.currentPiece (g.currentP).rotate } := by
  have e2 : (g.pieces.set g.board.currentPiece (g.currentP).rotate).getD
      g.board.currentPiece default = (g.currentP).rotate :=
    getD_set_self' _ _ _ _ (by simpa using hcur)
  simp only [Game.currentP] at e2 hc
  simp only [Game.Rotate, Game.currentP, e2, hc]
  simp

lemma Rotate_of_collision (g : Game) (hcur : g.board.currentPiece < g.pieces.length)
    (h0 : 0 ≤ (g.currentP).currentRotation)
    (hlt : (g.currentP).currentRotation < ((g.currentP).rotations.length : Int))
    (hc : g.board.currentPieceInCollision (g.currentP).rotate = true) :
    g.Rotate = g := by
  have e2 : (g.pieces.set g.board.currentPiece (g.currentP).rotate).getD
      g.board.currentPiece default = (g.currentP).rotate :=
    getD_set_self' _ _ _ _ (by simpa using hcur)
  have hru : (g.currentP).rotate.unrotate = g.currentP := rotate_unrotate _ h0 hlt
  simp only [Game.currentP] at e2 hc hru
  simp only [Game.Rotate, Game.currentP, e2, hc]
  simp only [if_pos rfl, List.set_set, hru]
  rw [set_getD_self']
  rfl

lemma RotateCCW_of_not_collision (g : Game) (hcur : g.board.currentPiece < g.pieces.length)
    (hc : g.board.currentPieceInCollision (g.currentP).unrotate = false) :
    g.RotateCCW = { g with pieces := g.pieces.set g.board.currentPiece (g.currentP).unrotate } := by
  have e2 : (g.pieces.set g.board.currentPiece (g.currentP).unrotate).getD
      g.board.currentPiece default = (g.currentP).unrotate :=
    getD_set_self' _ _ _ _ (by simpa using hcur)
  simp only [Game.currentP] at e2 hc
  simp only [Game.RotateCCW, Game.currentP, e2, hc]
  simp

lemma RotateCCW_of_collision (g : Game) (hcur : g.board.currentPiece < g.pieces.length)
    (hc : g.board.currentPieceInCollision (g.currentP).unrotate = true) :
    g.RotateCCW = g := by
  have e2 : (g.pieces.set g.board.currentPiece (g.currentP).unrotate).getD
      g.board.currentPiece default = (g.currentP).unrotate :=
    getD_set_self' _ _ _ _ (by simpa using hcur)
  have hres := restore_prior_unrotate (g.currentP)
  simp only [Game.currentP] at e2 hc hres
  simp only [Game.RotateCCW, Game.currentP, e2, hc]
  simp only [if_pos rfl, List.set_set, hres]
  rw [set_getD_self']
  rfl

lemma Rotate180_of_not_collision (g : Game) (hcur : g.board.currentPiece < g.pieces.length)
    (hc : g.board.currentPieceInCollision (g.currentP).dblrotate = false) :
    g.Rotate180 = { g with pieces := g.pieces.set g.board.currentPiece (g.currentP).dblrotate } := by
  have e2 : (g.pieces.set g.board.currentPiece (g.currentP).dblrotate).getD
      g.board.currentPiece default = (g.currentP).dblrotate :=
    getD_set_self' _ _ _ _ (by simpa using hcur)
  simp only [Game.currentP] at e2 hc
  simp only [Game.Rotate180, Game.currentP, e2, hc]
  simp

lemma Rotate180_of_collision (g : Game) (hcur : g.board.currentPiece < g.pieces.length)
    (hc : g.board.currentPieceInCollision (g.currentP).dblrotate = true) :
    g.Rotate180 = g := by
  have e2 : (g.pieces.set g.board.currentPiece (g.currentP).dblrotate).getD
      g.board.currentPiece default = (g.currentP).dblrotate :=
    getD_set_self' _ _ _ _ (by simpa using hcur)
  have hres := restore_prior_dblrotate (g.currentP)
  simp only [Game.currentP] at e2 hc hres
  simp only [Game.Rotate180, Game.currentP, e2, hc]
  simp only [if_pos rfl, List.set_set, hres]
  rw [set_getD_self']
  rfl

lemma anchor_score (g : Game) (r : Nat) :
    (g.anchor r).score =
      if 0 < (clearedRowsList ((g.board.mergeCurrentPiece g.currentP).cells)).length then
        g.score + 100 * (2 : Int) ^
          ((clearedRowsList ((g.board.mergeCurrentPiece g.currentP).cells)).length - 1)
      else g.score := by
  simp only [Game.anchor]
  by_cases h : 0 < (clearedRowsList ((g.board.mergeCurrentPiece g.currentP).cells)).length
  · simp only [if_pos h]
    split <;> rfl
  · simp only [if_neg h]
    split <;> rfl

lemma anchor_position (g : Game) (r : Nat) :
    (g.anchor r).board.currentPosition = ⟨initialX, 0⟩ := by
  simp only [Game.anchor]
  by_cases h : 0 < (clearedRowsList ((g.board.mergeCurrentPiece g.currentP).cells)).length
  · simp only [if_pos h]
    split <;> rfl
  · simp only [if_neg h]
    split <;> rfl

lemma anchor_pieces (g : Game) (r : Nat) :
    (g.anchor r).pieces = g.pieces.set (g.GeneratePiece r)
      { g.pieces.getD (g.GeneratePiece r) default with currentRotation := 0 } := by
  simp only [Game.anchor]
  by_cases h : 0 < (clearedRowsList ((g.board.mergeCurrentPiece g.currentP).cells)).length
  · simp only [if_pos h]
    split <;> rfl
  · simp only [if_neg h]
    split <;> rfl

lemma anchor_nextPiece (g : Game) (r : Nat) :
    (g.anchor r).nextPiece = g.GeneratePiece r := by
  simp only [Game.anchor]
  by_cases h : 0 < (clearedRowsList ((g.board.mergeCurrentPiece g.currentP).cells)).length
  · simp only [if_pos h]
    split <;> rfl
  · simp only [if_neg h]
    split <;> rfl

lemma anchor_currentPiece (g : Game) (r : Nat) :
    (g.anchor r).board.currentPiece = g.nextPiece := by
  simp only [Game.anchor]
  by_cases h : 0 < (clearedRowsList ((g.board.mergeCurrentPiece g.currentP).cells)).length
  · simp only [if_pos h]
    split <;> rfl
  · simp only [if_neg h]
    split <;> rfl

lemma anchor_paused (g : Game) (r : Nat) : (g.anchor r).paused = g.paused := by
  simp only [Game.anchor]
  by_cases h : 0 < (clearedRowsList ((g.board.mergeCurrentPiece g.currentP).cells)).length
  · simp only [if_pos h]
    split <;> rfl
  · simp only [if_neg h]
    split <;> rfl

lemma anchor_score_mono (g : Game) (r : Nat) : g.score ≤ (g.anchor r).score := by
  rw [anchor_score]
  split
  · have h2 : (0 : Int) < 100 * (2 : Int) ^
        ((clearedRowsList ((g.board.mergeCurrentPiece g.currentP).cells)).length - 1) := by
      positivity
    omega
  · exact le_refl _

lemma score_le_anchor (g0 : Game) (s : Int) (r : Nat) (h : s ≤ g0.score) :
    s ≤ (g0.anchor r).score := le_trans h (anchor_score_mono g0 r)

lemma Move_score_mono (g : Game) (dir : Direction) (r : Nat) :
    g.score ≤ (g.Move dir r).score := by
  simp only [Game.Move]
  split
  · exact score_le_anchor _ _ r (le_refl _)
  · exact le_refl _

lemma QuickDrop_score_mono (g : Game) (r : Nat) : g.score ≤ (g.QuickDrop r).score := by
  simp only [Game.QuickDrop]
  exact score_le_anchor _ _ r (le_refl _)

lemma Rotate_score (g : Game) : (g.Rotate).score = g.score := by
  simp only [Game.Rotate]
  split <;> rfl

lemma RotateCCW_score (g : Game) : (g.RotateCCW).score = g.score := by
  simp only [Game.RotateCCW]
  split <;> rfl

lemma Rotate180_score (g : Game) : (g.Rotate180).score = g.score := by
  simp only [Game.Rotate180]
  split <;> rfl

lemma PauseToggle_score (g : Game) : (g.PauseToggle).score = g.score := by
  simp only [Game.PauseToggle]
  split <;> rfl

lemma step_score_mono (g : Game) (e : GameEvent) (r : Nat) :
    g.score ≤ (g.step e r).score := by
  by_cases hp : g.paused = true
  · cases e <;> simp only [Game.step, hp, if_true] <;>
      first
      | exact le_refl _
      | exact le_of_eq (PauseToggle_score g).symm
  · cases e
    · simp only [Game.step, if_neg hp]
      exact Move_score_mono g Direction.Left r
    · simp only [Game.step, if_neg hp]
      exact Move_score_mono g Direction.Right r
    · simp only [Game.step, if_neg hp]
      exact Move_score_mono g Direction.Down r
    · simp only [Game.step, if_neg hp]
      exact le_of_eq (Rotate_score g).symm
    · simp only [Game.step, if_neg hp]
      exact le_of_eq (RotateCCW_score g).symm
    · simp only [Game.step, if_neg hp]
      exact le_of_eq (Rotate180_score g).symm
    · simp only [Game.step, if_neg hp]
      exact QuickDrop_score_mono g r
    · simp only [Game.step, if_neg hp]
      exact le_of_eq (PauseToggle_score g).symm
    · simp only [Game.step, if_neg hp]
      exact le_refl _
    · simp only [Game.step, if_neg hp]
      exact le_refl _

lemma run_score_mono :
    ∀ (evs : List (GameEvent × Nat)) (g : Game), g.score ≤ (g.run evs).score := by
  intro evs
  induction evs with
  | nil => intro g; exact le_refl _
  | cons pr rest ih =>
    intro g
    obtain ⟨e, r⟩ := pr
    by_cases hq : e = GameEvent.Quit
    · simp [Game.run, hq]
    · simp only [Game.run, if_neg hq]
      by_cases ho : (g.step e r).over = true
      · simp only [if_pos ho]
        exact step_score_mono g e r
      · simp only [if_neg ho]
        exact le_trans (step_score_mono g e r) (ih (g.step e r))

lemma step_paused_noop (g : Game) (e : GameEvent) (r : Nat) (hp : g.paused = true)
    (he : e = GameEvent.MoveLeft ∨ e = GameEvent.MoveRight ∨ e = GameEvent.MoveDown ∨
      e = GameEvent.Rotate ∨ e = GameEvent.RotateCCW ∨ e = GameEvent.Rotate180 ∨
      e = GameEvent.QuickDrop) :
    g.step e r = g := by
  rcases he with h | h | h | h | h | h | h <;> subst h <;> simp [Game.step, hp]

lemma run_over_stops :
    ∀ (evs : List (GameEvent × Nat)) (g : Game) (suffix : List (GameEvent × Nat)),
      g.over = false → (g.run evs).over = true → g.run (evs ++ suffix) = g.run evs := by
  intro evs
  induction evs with
  | nil =>
    intro g suffix h0 hov
    simp only [Game.run] at hov
    rw [h0] at hov
    exact absurd hov (by simp)
  | cons pr rest ih =>
    intro g suffix h0 hov
    obtain ⟨e, r⟩ := pr
    by_cases hq : e = GameEvent.Quit
    · simp [Game.run, hq]
    · simp only [List.cons_append, Game.run, if_neg hq] at hov ⊢
      by_cases ho : (g.step e r).over = true
      · simp only [if_pos ho]
      · simp only [if_neg ho] at hov ⊢
        exact ih (g.step e r) suffix (by simpa using ho) hov

lemma tetrisPieces_rotZero (i : Nat) : (tetrisPieces.getD i default).currentRotation = 0 := by
  match i with
  | 0 => rfl
  | 1 => rfl
  | 2 => rfl
  | 3 => rfl
  | 4 => rfl
  | 5 => rfl
  | 6 => rfl
  | n + 7 =>
    rw [List.getD_eq_default _ _ (show tetrisPieces.length ≤ n + 7 by norm_num [tetrisPieces])]
    rfl

lemma sameShape_refl (p : Piece) : sameShape p p := ⟨rfl, rfl, rfl, rfl⟩

lemma sameShape_trans {p q s : Piece} (h1 : sameShape p q) (h2 : sameShape q s) :
    sameShape p s :=
  ⟨h1.1.trans h2.1, h1.2.1.trans h2.2.1, h1.2.2.1.trans h2.2.2.1, h1.2.2.2.trans h2.2.2.2⟩

lemma sameShape_set (l : List Piece) (cur : Nat) (p' : Piece)
    (h : sameShape p' (l.getD cur default)) (i : Nat) :
    sameShape ((l.set cur p').getD i default) (l.getD i default) := by
  by_cases hic : i = cur
  · subst hic
    by_cases hl : i < l.length
    · rw [getD_set_self' _ _ _ _ hl]
      exact h
    · rw [List.set_eq_of_length_le (Nat.le_of_not_lt hl)]
      exact sameShape_refl _
  · rw [getD_set_ne' _ _ _ _ _ (fun hh => hic hh.symm)]
    exact sameShape_refl _

lemma anchor_sameShape (g : Game) (r : Nat) (i : Nat) :
    sameShape ((g.anchor r).pieces.getD i default) (g.pieces.getD i default) := by
  rw [anchor_pieces]
  refine sameShape_set _ _ _ ?_ i
  exact ⟨rfl, rfl, rfl, rfl⟩

lemma Rotate_sameShape (g : Game) (i : Nat) :
    sameShape ((g.Rotate).pieces.getD i default) (g.pieces.getD i default) := by
  simp only [Game.Rotate]
  split
  · refine sameShape_trans (sameShape_set _ _ _ ?_ i) (sameShape_set _ _ _ ?_ i) <;>
      exact ⟨rfl, rfl, rfl, rfl⟩
  · refine sameShape_set _ _ _ ?_ i
    exact ⟨rfl, rfl, rfl, rfl⟩

lemma RotateCCW_sameShape (g : Game) (i : Nat) :
    sameShape ((g.RotateCCW).pieces.getD i default) (g.pieces.getD i default) := by
  simp only [Game.RotateCCW]
  split
  · refine sameShape_trans (sameShape_set _ _ _ ?_ i) (sameShape_set _ _ _ ?_ i) <;>
      exact ⟨rfl, rfl, rfl, rfl⟩
  · refine sameShape_set _ _ _ ?_ i
    exact ⟨rfl, rfl, rfl, rfl⟩

lemma Rotate180_sameShape (g : Game) (i : Nat) :
    sameShape ((g.Rotate180).pieces.getD i default) (g.pieces.getD i default) := by
  simp only [Game.Rotate180]
  split
  · refine sameShape_trans (sameShape_set _ _ _ ?_ i) (sameShape_set _ _ _ ?_ i) <;>
      exact ⟨rfl, rfl, rfl, rfl⟩
  · refine sameShape_set _ _ _ ?_ i
    exact ⟨rfl, rfl, rfl, rfl⟩

lemma Move_sameShape (g : Game) (dir : Direction) (r : Nat) (i : Nat) :
    sameShape ((g.Move dir r).pieces.getD i default) (g.pieces.getD i default) := by
  simp only [Game.Move]
  split
  · exact anchor_sameShape _ r i
  · exact sameShape_refl _

lemma QuickDrop_sameShape (g : Game) (r : Nat) (i : Nat) :
    sameShape ((g.QuickDrop r).pieces.getD i default) (g.pieces.getD i default) := by
  simp only [Game.QuickDrop]
  exact anchor_sameShape _ r i

lemma PauseToggle_sameShape (g : Game) (i : Nat) :
    sameShape ((g.PauseToggle).pieces.getD i default) (g.pieces.getD i default) := by
  simp only [Game.PauseToggle]
  split <;> exact sameShape_refl _

lemma step_sameShape (g : Game) (e : GameEvent) (r : Nat) (i : Nat) :
    sameShape ((g.step e r).pieces.getD i default) (g.pieces.getD i default) := by
  by_cases hp : g.paused = true
  · cases e <;> simp only [Game.step, hp, if_true] <;>
      first
      | exact sameShape_refl _
      | exact PauseToggle_sameShape g i
  · cases e
    · simp only [Game.step, if_neg hp]
      exact Move_sameShape g Direction.Left r i
    · simp only [Game.step, if_neg hp]
      exact Move_sameShape g Direction.Right r i
    · simp only [Game.step, if_neg hp]
      exact Move_sameShape g Direction.Down r i
    · simp only [Game.step, if_neg hp]
      exact Rotate_sameShape g i
    · simp only [Game.step, if_neg hp]
      exact RotateCCW_sameShape g i
    · simp only [Game.step, if_neg hp]
      exact Rotate180_sameShape g i
    · simp only [Game.step, if_neg hp]
      exact QuickDrop_sameShape g r i
    · simp only [Game.step, if_neg hp]
      exact PauseToggle_sameShape g i
    · simp only [Game.step, if_neg hp]
      exact sameShape_refl _
    · simp only [Game.step, if_neg hp]
      exact sameShape_refl _

lemma run_sameShape :
    ∀ (evs : List (GameEvent × Nat)) (g : Game) (i : Nat),
      sameShape ((g.run evs).pieces.getD i default) (g.pieces.getD i default) := by
  intro evs
  induction evs with
  | nil => intro g i; exact sameShape_refl _
  | cons pr rest ih =>
    intro g i
    obtain ⟨e, r⟩ := pr
    by_cases hq : e = GameEvent.Quit
    · simp only [Game.run, if_pos hq]
      exact sameShape_refl _
    · simp only [Game.run, if_neg hq]
      by_cases ho : (g.step e r).over = true
      · simp only [if_pos ho]
        exact step_sameShape g e r i
      · simp only [if_neg ho]
        exact sameShape_trans (ih (g.step e r) i) (step_sameShape g e r i)

lemma countP_partition {α : Type} (p : α → Bool) :
    ∀ l : List α, (l.filter p).length + (l.filter (fun a => !(p a))).length = l.length := by
  intro l
  induction l with
  | nil => rfl
  | cons x t ih =>
    by_cases h : p x = true <;> simp [List.filter_cons, h] <;> omega

lemma filter_getD_countP {α : Type} (p : α → Bool) (d : α) :
    ∀ (l : List α) (i : Nat), i < l.length → p (l.getD i d) = true →
      (l.filter p).getD ((l.take i).countP p) d = l.getD i d := by
  intro l
  induction l with
  | nil => intro i hi; simp at hi
  | cons x t ih =>
    intro i hi hp
    cases i with
    | zero =>
      rw [List.getD_cons_zero] at hp ⊢
      rw [List.filter_cons_of_pos hp]
      simp
    | succ k =>
      rw [List.getD_cons_succ] at hp ⊢
      have hk : k < t.length := by simpa using hi
      by_cases hx : p x = true
      · rw [List.take_succ_cons, List.countP_cons_of_pos _ _ hx,
          List.filter_cons_of_pos hx, List.getD_cons_succ]
        exact ih k hk hp
      · rw [List.take_succ_cons, List.countP_cons_of_neg _ _ hx,
          List.filter_cons_of_neg hx]
        exact ih k hk hp

lemma clearRows_length (cs : Grid) : (clearRowsList cs).length = cs.length := by
  rw [clearRowsList, List.length_append, List.length_replicate]
  have := countP_partition (fun r => rowFull r) cs
  simpa using this

lemma clearRows_top_empty (cs : Grid) (j : Nat)
    (hj : j < (cs.filter (fun r => rowFull r)).length) :
    (clearRowsList cs).getD j [] = emptyRow := by
  rw [clearRowsList, List.getD_append _ _ _ j (by simpa using hj),
    List.getD_eq_getElem _ _ (by simpa using hj)]
  exact List.getElem_replicate _ _

lemma clearRows_shift (cs : Grid) (i : Nat) (hi : i < cs.length)
    (hnf : rowFull (cs.getD i []) = false) :
    (clearRowsList cs).getD
      (i + ((cs.drop (i + 1)).filter (fun r => rowFull r)).length) [] = cs.getD i [] := by
  have hk : (cs.filter (fun r => rowFull r)).length = cs.countP (fun r => rowFull r) :=
    (List.countP_eq_length_filter _ cs).symm
  have h1 : cs.countP (fun r => rowFull r) =
      (cs.take (i + 1)).countP (fun r => rowFull r) +
        (cs.drop (i + 1)).countP (fun r => rowFull r) := by
    conv_lhs => rw [← List.take_append_drop (i + 1) cs]
    rw [List.countP_append]
  have h2 : (cs.take (i + 1)).countP (fun r => rowFull r) =
      (cs.take i).countP (fun r => rowFull r) := by
    rw [List.take_succ, List.getElem?_eq_getElem hi, List.countP_append]
    have hz : List.countP (fun r => rowFull r) (some cs[i]).toList = 0 := by
      rw [List.getD_eq_getElem _ _ hi] at hnf
      simp [List.countP_singleton, hnf]
    omega
  have h3 : (cs.take i).countP (fun r => rowFull r) +
      (cs.take i).countP (fun r => !(rowFull r)) = i := by
    have hp := countP_partition (fun r => rowFull r) (cs.take i)
    rw [List.length_take] at hp
    rw [List.countP_eq_length_filter, List.countP_eq_length_filter]
    omega
  have hdropF : ((cs.drop (i + 1)).filter (fun r => rowFull r)).length =
      (cs.drop (i + 1)).countP (fun r => rowFull r) :=
    (List.countP_eq_length_filter _ _).symm
  have hidx : i + ((cs.drop (i + 1)).filter (fun r => rowFull r)).length =
      (cs.filter (fun r => rowFull r)).length + (cs.take i).countP (fun r => !(rowFull r)) := by
    omega
  rw [hidx, clearRowsList,
    List.getD_append_right _ _ _ _ (by simp),
    List.length_replicate, Nat.add_sub_cancel_left]
  have hnf2 : (fun r => !(rowFull r)) (cs.getD i []) = true := by
    simp only [hnf, Bool.not_false]
  exact filter_getD_countP _ _ cs i hi hnf2

/-! ## Claim theorems -/

/-- C1: for every sequence of draws from the piece supply (`Bag.getPiece`
iterated from a freshly initialized bag, under any shuffle randomness),
each consecutive run of 7 draws aligned to a bag boundary is a permutation
of all 7 piece kinds — no duplicates, no omissions — and no kind ever
appears three times in a row. -/
theorem claim_C1_seven_bag (b : Bag) (js : Nat → Nat) (rnd : Nat → Nat → Nat) :
    (∀ m, List.Perm (runList rnd (Bag.initializeBag b js) m) [0, 1, 2, 3, 4, 5, 6]) ∧
    ∀ i, ¬(bagDraw rnd (Bag.initializeBag b js) i = bagDraw rnd (Bag.initializeBag b js) (i + 1) ∧
      bagDraw rnd (Bag.initializeBag b js) (i + 1) = bagDraw rnd (Bag.initializeBag b js) (i + 2)) := by
  constructor
  · intro m
    rw [runList_eq_reverse]
    exact (List.reverse_perm _).trans (bagPieces_perm js rnd b.bagNumber m)
  · intro i h
    by_cases h6 : i % 7 = 6
    · exact bagDraw_adjacent_ne b js rnd (i + 1) (by omega) h.2
    · exact bagDraw_adjacent_ne b js rnd i h6 h.1

/-- Witness for C1 at a concrete bag and randomness. -/
theorem claim_C1_seven_bag_witness :
    List.Perm (runList rnd0 (Bag.initializeBag bag0 js0) 0) [0, 1, 2, 3, 4, 5, 6] ∧
    ¬(bagDraw rnd0 (Bag.initializeBag bag0 js0) 0 = bagDraw rnd0 (Bag.initializeBag bag0 js0) 1 ∧
      bagDraw rnd0 (Bag.initializeBag bag0 js0) 1 = bagDraw rnd0 (Bag.initializeBag bag0 js0) 2) :=
  ⟨(claim_C1_seven_bag bag0 js0 rnd0).1 0, (claim_C1_seven_bag bag0 js0 rnd0).2 0⟩

/-- C7: for every score `s ≥ 0` the recomputed gravity interval is
`max(200, 800 - s/5)` with integer division; score 0 gives 800 ms, score
500 gives 700 ms, and every score of 3000 or more saturates at 200 ms. -/
theorem claim_C7_speed_curve :
    (∀ g : Game, 0 ≤ g.score →
      (g.startTicker).dropDelayMillis = max 200 (800 - g.score / 5)) ∧
    (∀ g : Game, g.score = 0 → (g.startTicker).dropDelayMillis = 800) ∧
    (∀ g : Game, g.score = 500 → (g.startTicker).dropDelayMillis = 700) ∧
    (∀ g : Game, 3000 ≤ g.score → (g.startTicker).dropDelayMillis = 200) := by
  have base : ∀ g : Game, 0 ≤ g.score →
      (g.startTicker).dropDelayMillis = max 200 (800 - g.score / 5) := by
    intro g hg
    have ht : g.score.tdiv 5 = g.score / 5 := Int.tdiv_eq_ediv hg (by norm_num)
    simp only [Game.startTicker, ht]
    rcases le_or_lt 200 (800 - g.score / 5) with h | h
    · rw [if_neg (by omega), max_eq_right h]
    · rw [if_pos h, max_eq_left (by omega)]
  refine ⟨base, ?_, ?_, ?_⟩
  · intro g hg
    rw [base g (by omega), hg]
    decide
  · intro g hg
    rw [base g (by omega), hg]
    decide
  · intro g hg
    have h5 : 600 ≤ g.score / 5 := by
      have := Int.ediv_le_ediv (by norm_num : (0 : Int) < 5) hg
      simpa using this
    rw [base g (by omega), max_eq_left (by omega)]

/-- Witness for C7 at concrete scores, including one beyond the floor. -/
theorem claim_C7_speed_curve_witness :
    (gameWithScore 1234).startTicker.dropDelayMillis = max 200 (800 - 1234 / 5) ∧
    (gameWithScore 0).startTicker.dropDelayMillis = 800 ∧
    (gameWithScore 500).startTicker.dropDelayMillis = 700 ∧
    (gameWithScore 4000).startTicker.dropDelayMillis = 200 :=
  ⟨claim_C7_speed_curve.1 (gameWithScore 1234) (by decide),
   claim_C7_speed_curve.2.1 (gameWithScore 0) (by decide),
   claim_C7_speed_curve.2.2.1 (gameWithScore 500) (by decide),
   claim_C7_speed_curve.2.2.2 (gameWithScore 4000) (by decide)⟩

/-- C8: `moveIfPossible(delta)` either returns true and changes the piece
position by exactly `delta`, leaving the settled cells and the current
piece reference (hence its kind and rotation) unchanged, or returns false
and leaves the entire board unchanged. -/
theorem claim_C8_moveIfPossible_frame (b : Board) (p : Piece) (delta : Vector) :
    ((b.moveIfPossible p delta).2 = true →
      (b.moveIfPossible p delta).1.currentPosition = b.currentPosition.plus delta ∧
      (b.moveIfPossible p delta).1.cells = b.cells ∧
      (b.moveIfPossible p delta).1.currentPiece = b.currentPiece) ∧
    ((b.moveIfPossible p delta).2 = false → (b.moveIfPossible p delta).1 = b) := by
  unfold Board.moveIfPossible
  by_cases h : b.canPlace p delta p.currentRotation <;> simp [h]

/-- Witness for C8: a concrete successful move on an empty board. -/
theorem claim_C8_moveIfPossible_frame_witness :
    (newBoard.moveIfPossible (tetrisPieces.getD 0 default) ⟨0, 1⟩).1.currentPosition =
        newBoard.currentPosition.plus ⟨0, 1⟩ ∧
    (newBoard.moveIfPossible (tetrisPieces.getD 0 default) ⟨0, 1⟩).1.cells = newBoard.cells ∧
    (newBoard.moveIfPossible (tetrisPieces.getD 0 default) ⟨0, 1⟩).1.currentPiece =
        newBoard.currentPiece :=
  (claim_C8_moveIfPossible_frame newBoard (tetrisPieces.getD 0 default) ⟨0, 1⟩).1 (by decide)

/-- C6: each rotation operation advances the falling piece's rotation index
by +1 (`Rotate`, clockwise), -1 (`RotateCCW`), or +2 (`Rotate180`) modulo
the kind's rotation-state count; and when the piece at the resulting
rotation collides, the rotation index is reverted to its prior value with
no other state change. -/
theorem claim_C6_rotations (g : Game)
    (hcur : g.board.currentPiece < g.pieces.length)
    (h0 : 0 ≤ (g.currentP).currentRotation)
    (hlt : (g.currentP).currentRotation < ((g.currentP).rotations.length : Int))
    (hL : 0 < (g.currentP).rotations.length) :
    (g.board.currentPieceInCollision (g.currentP).rotate = false →
      ((g.Rotate).currentP).currentRotation =
        ((g.currentP).currentRotation + 1) % ((g.currentP).rotations.length : Int) ∧
      (g.Rotate).board = g.board ∧ (g.Rotate).score = g.score ∧
      (g.Rotate).nextPiece = g.nextPiece ∧ (g.Rotate).paused = g.paused ∧
      (g.Rotate).over = g.over ∧
      ∀ i, i ≠ g.board.currentPiece →
        (g.Rotate).pieces.getD i default = g.pieces.getD i default) ∧
    (g.board.currentPieceInCollision (g.currentP).rotate = true → g.Rotate = g) ∧
    (g.board.currentPieceInCollision (g.currentP).unrotate = false →
      ((g.RotateCCW).currentP).currentRotation =
        ((g.currentP).currentRotation - 1) % ((g.currentP).rotations.length : Int) ∧
      (g.RotateCCW).board = g.board ∧ (g.RotateCCW).score = g.score ∧
      (g.RotateCCW).nextPiece = g.nextPiece ∧ (g.RotateCCW).paused = g.paused ∧
      (g.RotateCCW).over = g.over ∧
      ∀ i, i ≠ g.board.currentPiece →
        (g.RotateCCW).pieces.getD i default = g.pieces.getD i default) ∧
    (g.board.currentPieceInCollision (g.currentP).unrotate = true → g.RotateCCW = g) ∧
    (g.board.currentPieceInCollision (g.currentP).dblrotate = false →
      ((g.Rotate180).currentP).currentRotation =
        ((g.currentP).currentRotation + 2) % ((g.currentP).rotations.length : Int) ∧
      (g.Rotate180).board = g.board ∧ (g.Rotate180).score = g.score ∧
      (g.Rotate180).nextPiece = g.nextPiece ∧ (g.Rotate180).paused = g.paused ∧
      (g.Rotate180).over = g.over ∧
      ∀ i, i ≠ g.board.currentPiece →
        (g.Rotate180).pieces.getD i default = g.pieces.getD i default) ∧
    (g.board.currentPieceInCollision (g.currentP).dblrotate = true → g.Rotate180 = g) := by
  refine ⟨?_, ?_, ?_, ?_, ?_, ?_⟩
  · intro hc
    rw [Rotate_of_not_collision g hcur hc]
    refine ⟨?_, rfl, rfl, rfl, rfl, rfl, ?_⟩
    · show ((g.pieces.set g.board.currentPiece (g.currentP).rotate).getD
        g.board.currentPiece default).currentRotation = _
      rw [getD_set_self' _ _ _ _ (by simpa using hcur), rotate_spec _ h0]
    · intro i hi
      exact getD_set_ne' _ _ _ _ _ (fun h => hi h.symm)
  · intro hc
    exact Rotate_of_collision g hcur h0 hlt hc
  · intro hc
    rw [RotateCCW_of_not_collision g hcur hc]
    refine ⟨?_, rfl, rfl, rfl, rfl, rfl, ?_⟩
    · show ((g.pieces.set g.board.currentPiece (g.currentP).unrotate).getD
        g.board.currentPiece default).currentRotation = _
      rw [getD_set_self' _ _ _ _ (by simpa using hcur), unrotate_spec _ h0 hlt]
    · intro i hi
      exact getD_set_ne' _ _ _ _ _ (fun h => hi h.symm)
  · intro hc
    exact RotateCCW_of_collision g hcur hc
  · intro hc
    rw [Rotate180_of_not_collision g hcur hc]
    refine ⟨?_, rfl, rfl, rfl, rfl, rfl, ?_⟩
    · show ((g.pieces.set g.board.currentPiece (g.currentP).dblrotate).getD
        g.board.currentPiece default).currentRotation = _
      rw [getD_set_self' _ _ _ _ (by simpa using hcur), dblrotate_spec _ h0 hL]
    · intro i hi
      exact getD_set_ne' _ _ _ _ _ (fun h => hi h.symm)
  · intro hc
    exact Rotate180_of_collision g hcur hc

/-- Witness for C6 on a concrete game: a T piece on an empty board rotates
to indices 1, 3, and 2 under the three operations. -/
theorem claim_C6_rotations_witness :
    ((gameC3.Rotate).currentP).currentRotation = 1 ∧
    ((gameC3.RotateCCW).currentP).currentRotation = 3 ∧
    ((gameC3.Rotate180).currentP).currentRotation = 2 := by
  have h := claim_C6_rotations gameC3 (by decide) (by decide) (by decide) (by decide)
  refine ⟨?_, ?_, ?_⟩
  · rw [(h.1 (by decide)).1]
    decide
  · rw [(h.2.2.1 (by decide)).1]
    decide
  · rw [(h.2.2.2.2.1 (by decide)).1]
    decide

/-- C4: an anchor that clears `n` rows with `1 ≤ n ≤ 4` increases the
score by exactly `100 * 2^(n-1)`, and an anchor that clears no rows leaves
the score unchanged. -/
theorem claim_C4_scoring (g : Game) (r : Nat) (n : Nat)
    (hn : n = (clearedRowsList ((g.board.mergeCurrentPiece g.currentP).cells)).length) :
    (1 ≤ n → n ≤ 4 → (g.anchor r).score = g.score + 100 * (2 : Int) ^ (n - 1)) ∧
    (n = 0 → (g.anchor r).score = g.score) := by
  subst hn
  constructor
  · intro h1 h4
    rw [anchor_score, if_pos (by omega)]
  · intro h0
    rw [anchor_score, if_neg (by omega)]

/-- Witness for C4: anchoring over a board with exactly two full rows
awards exactly 200 points. -/
theorem claim_C4_scoring_witness :
    (1 : Nat) ≤ 2 ∧ (2 : Nat) ≤ 4 ∧
    (gameTwoFull.anchor 0).score = gameTwoFull.score + 100 * (2 : Int) ^ (2 - 1) :=
  ⟨by norm_num, by norm_num,
    (claim_C4_scoring gameTwoFull 0 2 (by decide)).1 (by norm_num) (by norm_num)⟩

/-- C10: the score starts at 0, no operation other than `anchor` changes
it, an anchor changes it only when at least one row was cleared and then
by a strictly positive award, and over every event sequence the score is
non-negative and non-decreasing. -/
theorem claim_C10_score_invariant :
    (∀ r1 r2 : Nat, (NewGame r1 r2).score = 0) ∧
    (∀ g : Game, (g.Rotate).score = g.score ∧ (g.RotateCCW).score = g.score ∧
      (g.Rotate180).score = g.score ∧ (g.PauseToggle).score = g.score) ∧
    (∀ (g : Game) (r : Nat),
      ((clearedRowsList ((g.board.mergeCurrentPiece g.currentP).cells)).length = 0 →
        (g.anchor r).score = g.score) ∧
      (0 < (clearedRowsList ((g.board.mergeCurrentPiece g.currentP).cells)).length →
        g.score < (g.anchor r).score)) ∧
    (∀ (g : Game) (e : GameEvent) (r : Nat), g.score ≤ (g.step e r).score) ∧
    (∀ (g : Game) (evs : List (GameEvent × Nat)),
      g.score ≤ (g.run evs).score ∧ (0 ≤ g.score → 0 ≤ (g.run evs).score)) := by
  refine ⟨fun r1 r2 => rfl, ?_, ?_, step_score_mono, ?_⟩
  · intro g
    exact ⟨Rotate_score g, RotateCCW_score g, Rotate180_score g, PauseToggle_score g⟩
  · intro g r
    constructor
    · intro h0
      rw [anchor_score, if_neg (by omega)]
    · intro hpos
      rw [anchor_score, if_pos hpos]
      have h2 : (0 : Int) < 100 * (2 : Int) ^
          ((clearedRowsList ((g.board.mergeCurrentPiece g.currentP).cells)).length - 1) := by
        positivity
      omega
  · intro g evs
    exact ⟨run_score_mono evs g, fun h => le_trans h (run_score_mono evs g)⟩

/-- Witness for C10: a concrete anchor over two full rows strictly
increases the score, and a concrete run from a new game keeps the score
non-negative. -/
theorem claim_C10_score_invariant_witness :
    gameTwoFull.score < (gameTwoFull.anchor 0).score ∧
    0 ≤ ((NewGame 0 1).run [(GameEvent.MoveDown, 0)]).score :=
  ⟨(claim_C10_score_invariant.2.2.1 gameTwoFull 0).2 (by decide),
   (claim_C10_score_invariant.2.2.2.2 (NewGame 0 1) [(GameEvent.MoveDown, 0)]).2 (by decide)⟩

/-- C5: in the Paused state every movement, rotation, and drop event is a
strict no-op on the game state; and Over is terminal — once an event
leaves the game over, the loop processes no further event (only the
terminating quit is recognized), so appending any further events changes
nothing. -/
theorem claim_C5_paused_over :
    (∀ (g : Game) (e : GameEvent) (r : Nat), g.paused = true →
      (e = GameEvent.MoveLeft ∨ e = GameEvent.MoveRight ∨ e = GameEvent.MoveDown ∨
        e = GameEvent.Rotate ∨ e = GameEvent.RotateCCW ∨ e = GameEvent.Rotate180 ∨
        e = GameEvent.QuickDrop) → g.step e r = g) ∧
    (∀ (g : Game) (evs suffix : List (GameEvent × Nat)), g.over = false →
      (g.run evs).over = true → g.run (evs ++ suffix) = g.run evs) :=
  ⟨step_paused_noop,
   fun g evs suffix h0 hov => run_over_stops evs g suffix h0 hov⟩

/-- Witness for C5: a movement event on a concrete paused game is a no-op,
and a concrete game that reaches game-over by one quick drop ignores a
subsequent movement event. -/
theorem claim_C5_paused_over_witness :
    gamePaused.step GameEvent.MoveLeft 0 = gamePaused ∧
    gameSpawnBlocked.run ([(GameEvent.QuickDrop, 0)] ++ [(GameEvent.MoveLeft, 0)]) =
      gameSpawnBlocked.run [(GameEvent.QuickDrop, 0)] :=
  ⟨claim_C5_paused_over.1 gamePaused GameEvent.MoveLeft 0 rfl (Or.inl rfl),
   claim_C5_paused_over.2 gameSpawnBlocked [(GameEvent.QuickDrop, 0)]
     [(GameEvent.MoveLeft, 0)] rfl (by decide)⟩

/-- C2 counterexample: in a concrete game whose current and lookahead
pieces alias the same catalog entry (L), rotating once and anchoring puts
the entering piece at position `(initialX, 0)` — which differs from its
kind's catalog spawn offset `(3, -1)` — with rotation index 1, not 0. -/
theorem claim_C2_counterexample :
    ((gameC2.Rotate).anchor 2).board.currentPosition ≠
        ((((gameC2.Rotate).anchor 2).currentP).initialLocation) ∧
    (((gameC2.Rotate).anchor 2).currentP).currentRotation = 1 := by decide

/-- C2 amended: whenever a new piece enters play (at game start and after
every anchor) it is placed at the fixed position `(initialX, 0)` regardless
of its kind's catalog spawn offset; the newly drawn lookahead's rotation
index is reset to 0; and the entering piece's rotation index is 0 whenever
its catalog entry differs from the piece just played (rotation state lives
in the shared catalog entry, so it persists when they alias). -/
theorem claim_C2_amended (g : Game) (r r1 r2 : Nat)
    (hnext : g.nextPiece < g.pieces.length) :
    (g.anchor r).board.currentPosition = ⟨initialX, 0⟩ ∧
    (NewGame r1 r2).board.currentPosition = ⟨initialX, 0⟩ ∧
    ((NewGame r1 r2).currentP).currentRotation = 0 ∧
    ((g.anchor r).pieces.getD (g.anchor r).nextPiece default).currentRotation = 0 ∧
    (g.nextRotZero → g.nextPiece ≠ g.board.currentPiece →
      ((g.anchor r).currentP).currentRotation = 0) := by
  refine ⟨anchor_position g r, rfl, ?_, ?_, ?_⟩
  · show ((tetrisPieces.getD (r1 % tetrisPieces.length) default)).currentRotation = 0
    exact tetrisPieces_rotZero _
  · rw [anchor_nextPiece, anchor_pieces]
    by_cases h : g.GeneratePiece r < g.pieces.length
    · rw [getD_set_self' _ _ _ _ h]
    · rw [List.set_eq_of_length_le (Nat.le_of_not_lt h),
        List.getD_eq_default _ _ (Nat.le_of_not_lt h)]
      rfl
  · intro hz hne
    have hcp : ((g.anchor r).currentP).currentRotation =
        (((g.anchor r).pieces).getD g.nextPiece default).currentRotation := by
      unfold Game.currentP
      rw [anchor_currentPiece]
    rw [hcp, anchor_pieces]
    by_cases hEq : g.GeneratePiece r = g.nextPiece
    · rw [hEq, getD_set_self' _ _ _ _ hnext]
    · rw [getD_set_ne' _ _ _ _ _ hEq]
      exact hz hne

/-- Witness for C2 amended at a concrete non-aliased game. -/
theorem claim_C2_amended_witness :
    (gameC3.anchor 5).board.currentPosition = ⟨initialX, 0⟩ ∧
    ((gameC3.anchor 5).currentP).currentRotation = 0 :=
  ⟨(claim_C2_amended gameC3 5 0 0 (by decide)).1,
   (claim_C2_amended gameC3 5 0 0 (by decide)).2.2.2.2 (fun _ => by decide) (by decide)⟩

/-- C3 counterexample: the rotation operation mutates the current-rotation
field of the catalog entry itself (falling pieces are pointers into the
catalog slice), so the catalog entry after one rotation differs from the
original. -/
theorem claim_C3_counterexample :
    (gameC3.Rotate).pieces.getD 3 default ≠ gameC3.pieces.getD 3 default := by decide

/-- C3 amended: no sequence of game operations ever mutates the rotation
offsets, spawn offset, color, or name of any catalog entry; only the
current-rotation field of catalog entries is mutated (by rotations and by
each draw's lookahead reset), because falling pieces alias catalog
entries. -/
theorem claim_C3_amended :
    (∀ (g : Game) (e : GameEvent) (r : Nat) (i : Nat),
      sameShape ((g.step e r).pieces.getD i default) (g.pieces.getD i default)) ∧
    (∀ (g : Game) (evs : List (GameEvent × Nat)) (i : Nat),
      sameShape ((g.run evs).pieces.getD i default) (g.pieces.getD i default)) :=
  ⟨step_sameShape, fun g evs i => run_sameShape evs g i⟩

/-- C9: `clearRows()` removes exactly the rows in which every cell is
settled — any number of simultaneously full rows with one consistent
shift — leaving the grid at its original height: the first `k` rows of the
result (where `k` is the number of full rows) are empty, the rest are the
non-full rows in order, and each surviving row lands exactly
(number of full rows below it) positions further down. -/
theorem claim_C9_clearRows (cs : Grid) :
    (clearRowsList cs).length = cs.length ∧
    (clearRowsList cs).take ((cs.filter (fun r => rowFull r)).length) =
      List.replicate ((cs.filter (fun r => rowFull r)).length) emptyRow ∧
    (clearRowsList cs).drop ((cs.filter (fun r => rowFull r)).length) =
      cs.filter (fun r => !(rowFull r)) ∧
    (∀ j, j < (cs.filter (fun r => rowFull r)).length →
      (clearRowsList cs).getD j [] = emptyRow) ∧
    (∀ i, i < cs.length → rowFull (cs.getD i []) = false →
      (clearRowsList cs).getD
        (i + ((cs.drop (i + 1)).filter (fun r => rowFull r)).length) [] = cs.getD i []) := by
  refine ⟨clearRows_length cs, ?_, ?_, clearRows_top_empty cs, clearRows_shift cs⟩
  · rw [clearRowsList]
    exact List.take_left' (List.length_replicate _ _)
  · rw [clearRowsList]
    exact List.drop_left' (List.length_replicate _ _)

/-- Witness for C9 on the spec's example grid (height 4, rows 1 and 3
full, row 0 = A, row 2 = B): the height is preserved, the top row becomes
empty, and A and B land on rows 2 and 3. -/
theorem claim_C9_clearRows_witness :
    (clearRowsList gridC9).length = gridC9.length ∧
    (clearRowsList gridC9).getD 0 [] = emptyRow ∧
    (clearRowsList gridC9).getD
      (0 + ((gridC9.drop (0 + 1)).filter (fun r => rowFull r)).length) [] = gridC9.getD 0 [] ∧
    (clearRowsList gridC9).getD
      (2 + ((gridC9.drop (2 + 1)).filter (fun r => rowFull r)).length) [] = gridC9.getD 2 [] :=
  ⟨(claim_C9_clearRows gridC9).1,
   (claim_C9_clearRows gridC9).2.2.2.1 0 (by decide),
   (claim_C9_clearRows gridC9).2.2.2.2 0 (by decide) (by decide),
   (claim_C9_clearRows gridC9).2.2.2.2 2 (by decide) (by decide)⟩

end Tetris
